import Mathlib

/-!
Verification development for the "swan" browser extension (a Swagger-UI
navigator content script).  The JavaScript modules under scrutiny are

  * `scripts/storage.js`       — route-key generation and the persisted
    starred-route set (read-modify-write toggle, scoped bulk clear);
  * `scripts/dom-parser.js`    — extraction of operation records from the
    host page's rendered DOM (parseOperation, extractOperationsForTag,
    extractTags, extractAllOperations, findOperationElement);
  * the mutation-handler module — debounced reconciliation
    (handleMutations, debouncedReinit, injectStarsIntoOperations, destroy);
  * `scripts/sidebar-ui.js`    — the sidebar render pipeline
    (filterOperations, groupOperationsByTag, renderOperations) and its
    collapse-state behaviour.

JavaScript strings are modelled as `List Char` (`Str` below); the handful
of string primitives the code uses (`trim`, `toUpperCase`, `toLowerCase`,
`includes`, `startsWith`, per-character regex replaces) are defined
executably so that every statement can be evaluated on concrete inputs.
Asynchronous storage round trips are modelled by passing the stored value
(the serialized starred-route array) explicitly; `chrome.storage` itself
is an external key-value store and is not modelled beyond that value.
Timers (`setTimeout`/`clearTimeout`) are modelled by a deadline field in
an explicit state machine together with an `advanceTo` step that fires a
pending deadline once simulated time reaches it.
-/

/-- JavaScript strings, modelled as lists of characters. -/
abbrev Str := List Char

/-- Coerce a Lean string literal to the `Str` model. -/
def str (s : String) : Str := s.data

/-- ASCII uppercasing of one character, as JS `toUpperCase` acts on ASCII. -/
def jsCharUpper (c : Char) : Char :=
  if 97 ≤ c.toNat ∧ c.toNat ≤ 122 then Char.ofNat (c.toNat - 32) else c

/-- ASCII lowercasing of one character, as JS `toLowerCase` acts on ASCII. -/
def jsCharLower (c : Char) : Char :=
  if 65 ≤ c.toNat ∧ c.toNat ≤ 90 then Char.ofNat (c.toNat + 32) else c

/-- Model of `String.prototype.toUpperCase`. -/
def jsToUpper (s : Str) : Str := s.map jsCharUpper

/-- Model of `String.prototype.toLowerCase`. -/
def jsToLower (s : Str) : Str := s.map jsCharLower

/-- Whitespace recognised by the model of `String.prototype.trim`. -/
def jsIsWs (c : Char) : Bool := c = ' ' || c = '\t' || c = '\n' || c = '\r'

/-- Model of `String.prototype.trim`: strip whitespace from both ends. -/
def jsTrim (s : Str) : Str :=
  ((s.dropWhile jsIsWs).reverse.dropWhile jsIsWs).reverse

/-- Boolean test that `pre` is a leading segment of the second list;
model of the comparison underlying `String.prototype.startsWith`. -/
def listPrefixOf : Str → Str → Bool
  | [], _ => true
  | _ :: _, [] => false
  | a :: as, b :: bs => a == b && listPrefixOf as bs

/-- Model of `s.startsWith(pre)`. -/
def jsStartsWith (s pre : Str) : Bool := listPrefixOf pre s

/-- Contiguous-substring search; model of `String.prototype.includes`. -/
def hasSubstr (needle : Str) : Str → Bool
  | [] => listPrefixOf needle []
  | c :: rest => listPrefixOf needle (c :: rest) || hasSubstr needle rest

/-- Model of `s.includes(sub)`. -/
def strIncludes (s sub : Str) : Bool := hasSubstr sub s

/-- One character of the regex replace `[^a-zA-Z0-9-] → '-'` used for
fallback operation ids in `dom-parser.js`. -/
def idSanitize (c : Char) : Char :=
  if (97 ≤ c.toNat ∧ c.toNat ≤ 122) ∨ (65 ≤ c.toNat ∧ c.toNat ≤ 90) ∨
     (48 ≤ c.toNat ∧ c.toNat ≤ 57) ∨ c = '-' then c else '-'

/-- Helper for `wsRunsToDash`: `prevWs` records whether the previous
character was whitespace (so a continuing run emits nothing). -/
def wsRunsToDashAux (prevWs : Bool) : Str → Str
  | [] => []
  | c :: cs =>
    if jsIsWs c then (if prevWs then [] else ['-']) ++ wsRunsToDashAux true cs
    else c :: wsRunsToDashAux false cs

/-- Model of the regex replace `\s+ → '-'` (each maximal whitespace run
becomes a single dash), used for fallback tag ids. -/
def wsRunsToDash (s : Str) : Str := wsRunsToDashAux false s

/-! ## storage.js -/

/-- Source: `storage.js` lines 32-35.  `generateRouteKey(method, path)`
returns `` `${specId}::${method}::${path}` `` where `specId` is the value
of `getSpecIdentifier()` (document title, falling back to the URL path);
the identifier is passed explicitly here. -/
def generateRouteKey (specId method path : Str) : Str :=
  specId ++ str "::" ++ method ++ str "::" ++ path

/-- Insertion into a JS `Set` iterated in insertion order: a new element
is appended, an existing one leaves the set unchanged. -/
def jsSetAdd (l : List Str) (x : Str) : List Str :=
  if x ∈ l then l else l ++ [x]

/-- Model of `new Set(array)` followed by iteration (`Array.from`):
first occurrences of the elements, in order. -/
def jsSetOfList (l : List Str) : List Str := l.foldl jsSetAdd []

/-- Source: `storage.js` lines 41-48.  `getStarredRoutes` resolves the
stored array (defaulting to `[]`) to a `Set`; the stored array is the
explicit `stored` argument. -/
def getStarredRoutes (stored : List Str) : List Str := jsSetOfList stored

/-- Source: `storage.js` lines 56-74.  `toggleStarred` loads the full
set, flips membership of the route key, persists `Array.from(set)` and
resolves `set.has(routeKey)`.  Returns the persisted array and the
resolved boolean. -/
def toggleStarred (stored : List Str) (routeKey : Str) : List Str × Bool :=
  let starredRoutes := getStarredRoutes stored
  let updated :=
    if routeKey ∈ starredRoutes then starredRoutes.erase routeKey
    else starredRoutes ++ [routeKey]
  (updated, decide (routeKey ∈ updated))

/-- Source: `storage.js` lines 92-104.  `clearStarredRoutes` persists the
stored set filtered to the keys that do not start with
`` `${specId}::` ``. -/
def clearStarredRoutes (stored : List Str) (specId : Str) : List Str :=
  (getStarredRoutes stored).filter
    (fun key => !(jsStartsWith key (specId ++ str "::")))

/-! ## dom-parser.js -/

/-- An operation block (`.opblock`) as the parser reads it: the text
content of the method / path / summary / operationId sub-elements when
present, the deprecated markers, and the element's `id` property (`[]`
when the attribute is absent, as in the DOM). -/
structure OpBlock where
  methodText : Option Str
  pathText : Option Str
  summaryText : Option Str
  operationIdText : Option Str
  hasDeprecatedClass : Bool
  hasDeprecatedChild : Bool
  idAttr : Str
deriving DecidableEq, Inhabited, Repr

/-- The operation record produced by `parseOperation` (the non-owning
`element` handle is not part of the data). -/
structure Operation where
  method : Str
  path : Str
  summary : Str
  operationId : Str
  isDeprecated : Bool
  id : Str
deriving DecidableEq, Inhabited, Repr

/-- Source: `dom-parser.js` lines 80-109.  Returns `none` when the method
or path sub-element is missing; otherwise trims and uppercases the
method, trims the path, defaults summary / operationId to the empty
string, and falls back to a sanitized `method-path` id when the block has
no id of its own. -/
def parseOperation (b : OpBlock) : Option Operation :=
  match b.methodText, b.pathText with
  | some mt, some pt =>
    let method := jsToUpper (jsTrim mt)
    let path := jsTrim pt
    let summary := match b.summaryText with | some s => jsTrim s | none => []
    let operationId := match b.operationIdText with | some s => jsTrim s | none => []
    let isDeprecated := b.hasDeprecatedClass || b.hasDeprecatedChild
    some { method := method, path := path, summary := summary,
           operationId := operationId, isDeprecated := isDeprecated,
           id := if b.idAttr.isEmpty then (method ++ str "-" ++ path).map idSanitize
                 else b.idAttr }
  | _, _ => none

/-- Source: `dom-parser.js` lines 61-73.  Walks the operation blocks of a
tag section in document order, pushing each successfully parsed
operation; blocks on which `parseOperation` returns `none` are skipped. -/
def extractOperationsForTag (blocks : List OpBlock) : List Operation :=
  blocks.filterMap parseOperation

/-- A tag-group container (`.opblock-tag-section`): header text when the
`.opblock-tag` header exists, `id` property, and contained operation
blocks in document order. -/
structure TagSection where
  headerText : Option Str
  idAttr : Str
  blocks : List OpBlock
deriving DecidableEq, Inhabited, Repr

/-- Result of `extractTags` for one section. -/
structure TagInfo where
  name : Str
  tagId : Str
  blocks : List OpBlock
deriving DecidableEq, Inhabited, Repr

/-- Source: `dom-parser.js` lines 34-54.  Sections without a tag header
are skipped; the tag id is the element id, falling back to
`` `tag-${name.toLowerCase().replace(/\s+/g, '-')}` ``. -/
def extractTags (sections : List TagSection) : List TagInfo :=
  sections.filterMap (fun ts =>
    match ts.headerText with
    | none => none
    | some h =>
      let tagName := jsTrim h
      some { name := tagName,
             tagId := if ts.idAttr.isEmpty then
                        str "tag-" ++ wsRunsToDash (jsToLower tagName)
                      else ts.idAttr,
             blocks := ts.blocks })

/-- An operation annotated with its owning tag, as produced by
`extractAllOperations`. -/
structure TaggedOperation where
  method : Str
  path : Str
  summary : Str
  operationId : Str
  isDeprecated : Bool
  id : Str
  tagName : Str
  tagId : Str
deriving DecidableEq, Inhabited, Repr

/-- Source: `dom-parser.js` lines 115-131.  For each extracted tag, the
operations of its section annotated with the tag name and id, in
document order. -/
def extractAllOperations (sections : List TagSection) : List TaggedOperation :=
  (extractTags sections).flatMap (fun tag =>
    (extractOperationsForTag tag.blocks).map (fun op =>
      { method := op.method, path := op.path, summary := op.summary,
        operationId := op.operationId, isDeprecated := op.isDeprecated,
        id := op.id, tagName := tag.name, tagId := tag.tagId }))

/-- The comparison performed by `findOperationElement` on one block:
the block's method text, trimmed and uppercased, must equal the
uppercased query method, and its trimmed path text must equal the query
path; a block missing either sub-element never matches (the optional
chain yields `undefined`, which compares unequal to any string). -/
def opMatches (method path : Str) (b : OpBlock) : Bool :=
  (match b.methodText with
   | some t => jsToUpper (jsTrim t) == jsToUpper method
   | none => false) &&
  (match b.pathText with
   | some t => jsTrim t == path
   | none => false)

/-- Source: `dom-parser.js` lines 139-152.  Linear scan over all
`.opblock` elements in document order, returning the first match. -/
def findOperationElement (method path : Str) (blocks : List OpBlock) : Option OpBlock :=
  blocks.find? (opMatches method path)

/-! ## Mutation-handler module: star injection -/

/-- The injected `.swagger-nav-star` control, carrying the data the
source stores on the button (`dataset.method`, `dataset.path`, and the
starred styling). -/
structure StarButton where
  method : Str
  path : Str
  isStarred : Bool
deriving DecidableEq, Inhabited, Repr

/-- An operation block as the injector sees it: the parseable content,
whether the `.opblock-summary` region and the expand/collapse control
are present, and the star controls currently inside the block. -/
structure InjBlock where
  block : OpBlock
  hasSummaryRegion : Bool
  hasExpandControl : Bool
  stars : List StarButton
deriving DecidableEq, Inhabited, Repr

/-- Source: mutation-handler lines 151-190 (`createStarButton`). -/
def createStarButton (method path : Str) (isStarred : Bool) : StarButton :=
  { method := method, path := path, isStarred := isStarred }

/-- Source: mutation-handler lines 107-141, the body of the `forEach` in
`injectStarsIntoOperations`: skip when the block already contains a
`.swagger-nav-star`; skip when `parseOperation` fails; otherwise build
the star button from the parsed method/path and the starred set, and
insert it inside the summary region when that region exists (before the
expand control or appended — either way inside the block). -/
def injectStep (specId : Str) (starredRoutes : List Str) (b : InjBlock) : InjBlock :=
  if !b.stars.isEmpty then b
  else
    match parseOperation b.block with
    | none => b
    | some operation =>
      let routeKey := generateRouteKey specId operation.method operation.path
      let isStarred := decide (routeKey ∈ starredRoutes)
      let starButton := createStarButton operation.method operation.path isStarred
      if b.hasSummaryRegion then { b with stars := b.stars ++ [starButton] }
      else b

/-- Source: mutation-handler lines 103-142.  Injection over all current
operation blocks, with the starred set loaded from storage (`stored` is
the persisted array, as in `getStarredRoutes`). -/
def injectStarsIntoOperations (specId : Str) (stored : List Str)
    (blocks : List InjBlock) : List InjBlock :=
  blocks.map (injectStep specId (getStarredRoutes stored))

/-! ## Mutation-handler module: debounced reconciliation -/

/-- Source: mutation-handler line 12. -/
def DEBOUNCE_DELAY : Nat := 300

/-- A node appearing in `MutationRecord.addedNodes`: whether it is an
element node, whether it matches `.opblock, .opblock-tag-section`, and
whether it contains a `.opblock` descendant. -/
structure MutationNode where
  isElementNode : Bool
  matchesOpblockOrTag : Bool
  containsOpblock : Bool
deriving DecidableEq, Inhabited, Repr

/-- One observed mutation record (only `addedNodes` is inspected). -/
structure MutationRecord where
  addedNodes : List MutationNode
deriving DecidableEq, Inhabited, Repr

/-- Source: mutation-handler lines 48-69, the `shouldReinit` computation
of `handleMutations`: some record has some added element node that
matches the operation/tag selectors or contains an operation block. -/
def shouldReinitOf (mutations : List MutationRecord) : Bool :=
  mutations.any (fun m => m.addedNodes.any (fun n =>
    n.isElementNode && (n.matchesOpblockOrTag || n.containsOpblock)))

/-- One run of the debounce-timer body (mutation-handler lines 82-89):
it calls `injectStarsIntoOperations` once and, when `window.SidebarUI`
exists, `SidebarUI.refreshOperations` once. -/
structure Reconciliation where
  time : Nat
  injectCalls : Nat
  refreshCalls : Nat
deriving DecidableEq, Inhabited, Repr

/-- State of the mutation-handler module: the observer connection, the
`isInitialized` flag, the pending `debounceTimer` deadline (absolute
simulated time), whether `window.SidebarUI` exists, and the log of
reconciliations that have fired. -/
structure MHState where
  observerConnected : Bool
  isInitialized : Bool
  debounceDeadline : Option Nat
  sidebarPresent : Bool
  recons : List Reconciliation
deriving DecidableEq, Inhabited, Repr

/-- Firing of the timer scheduled for deadline `d`: the timer body runs
one injection and one sidebar refresh (when the sidebar exists), and the
timer is spent. -/
def fireTimer (s : MHState) (d : Nat) : MHState :=
  { s with debounceDeadline := none,
           recons := s.recons ++ [⟨d, 1, if s.sidebarPresent then 1 else 0⟩] }

/-- Advance simulated time to `t`: a pending deadline that has been
reached fires (timers fire regardless of the observer's state — nothing
in the source ties `setTimeout` to the observer). -/
def advanceTo (s : MHState) (t : Nat) : MHState :=
  match s.debounceDeadline with
  | some d => if d ≤ t then fireTimer s d else s
  | none => s

/-- Source: mutation-handler lines 79-90.  `clearTimeout(debounceTimer)`
then `setTimeout(..., DEBOUNCE_DELAY)` at current time `t`: whatever was
pending is replaced by a fresh deadline `t + DEBOUNCE_DELAY`. -/
def debouncedReinit (s : MHState) (t : Nat) : MHState :=
  { s with debounceDeadline := some (t + DEBOUNCE_DELAY) }

/-- Source: mutation-handler lines 48-74.  A qualifying batch calls
`debouncedReinit`; a non-qualifying batch does nothing. -/
def handleMutations (s : MHState) (t : Nat) (mutations : List MutationRecord) : MHState :=
  if shouldReinitOf mutations then debouncedReinit s t else s

/-- Source: mutation-handler lines 195-201.  `destroy` disconnects the
observer and resets `isInitialized`; the `debounceTimer` field is not
touched. -/
def destroy (s : MHState) : MHState :=
  { s with observerConnected := false, isInitialized := false }

/-- External events driving the module: a mutation batch delivered at
time `t` (dropped when the observer is disconnected), or a `destroy()`
call at time `t`. -/
inductive MHEvent where
  | mutationBatch (t : Nat) (mutations : List MutationRecord)
  | destroyCall (t : Nat)
deriving DecidableEq, Repr

/-- Process one event: time first advances to the event's instant
(firing a due timer), then the event itself is handled. -/
def stepEvent (s : MHState) (e : MHEvent) : MHState :=
  match e with
  | .mutationBatch t mutations =>
    let s1 := advanceTo s t
    if s1.observerConnected then handleMutations s1 t mutations else s1
  | .destroyCall t => destroy (advanceTo s t)

/-- Run a time-ordered event list. -/
def runEvents (s : MHState) (events : List MHEvent) : MHState :=
  events.foldl stepEvent s

/-- State after `init()`: observer connected, no pending timer, no
reconciliation yet. -/
def mhInitState (sidebarPresent : Bool) : MHState :=
  { observerConnected := true, isInitialized := true,
    debounceDeadline := none, sidebarPresent := sidebarPresent, recons := [] }

/-- Boolean chain condition on mutation times: nondecreasing, each one
arriving less than the debounce window after the previous one. -/
def rapidChain : List Nat → Bool
  | [] => true
  | [_] => true
  | a :: b :: rest =>
    (decide (a ≤ b) && decide (b < a + DEBOUNCE_DELAY)) && rapidChain (b :: rest)

/-! ## sidebar-ui.js -/

/-- Source: `sidebar-ui.js` lines 282-295, the `searchableText` template
literal of `filterOperations` (newlines and indentation included),
lowercased. -/
def searchableText (op : TaggedOperation) : Str :=
  jsToLower (str "\n        " ++ op.method ++ str " \n        " ++ op.path ++
    str " \n        " ++ op.summary ++ str " \n        " ++ op.operationId ++
    str "\n      ")

/-- Source: `sidebar-ui.js` lines 282-295.  An empty (falsy) term returns
the list unchanged; otherwise keep the operations whose searchable text
includes the term. -/
def filterOperations (operations : List TaggedOperation) (term : Str) :
    List TaggedOperation :=
  if term.isEmpty then operations
  else operations.filter (fun op => strIncludes (searchableText op) term)

/-- One step of `groupOperationsByTag`: append the operation to its
tag's bucket, creating the bucket at the end on first sight (JS object
key insertion order). -/
def groupAdd (groups : List (Str × List TaggedOperation)) (tag : Str)
    (op : TaggedOperation) : List (Str × List TaggedOperation) :=
  if groups.any (fun g => g.1 == tag) then
    groups.map (fun g => if g.1 == tag then (g.1, g.2 ++ [op]) else g)
  else groups ++ [(tag, [op])]

/-- Source: `sidebar-ui.js` lines 300-315.  Operations grouped by
`op.tagName || 'Untagged'`, preserving first-seen tag order and
per-tag operation order. -/
def groupOperationsByTag (operations : List TaggedOperation) :
    List (Str × List TaggedOperation) :=
  operations.foldl (fun gs op =>
    groupAdd gs (if op.tagName.isEmpty then str "Untagged" else op.tagName) op) []

/-- A tag section as rendered into the sidebar list: its `data-tag-id`
and whether its markup carries the `collapsed` class. -/
structure RenderedSection where
  tagId : Str
  collapsed : Bool
deriving DecidableEq, Inhabited, Repr

/-- Source: `sidebar-ui.js` lines 241-277 with `renderStarredSection`
(lines 320-340, class `tag-section starred-section`, no `collapsed`) and
`renderTag` (lines 345-375, class `tag-section collapsed`,
`` data-tag-id=`tag-${tagName.toLowerCase().replace(/\s+/g,'-')}` ``).
The previous list markup is discarded (`listContainer.innerHTML = html`),
so the output depends only on the current data. -/
def renderOperations (allOperations : List TaggedOperation)
    (starredRouteKeys : List Str) (specId : Str) (searchTerm : Str) :
    List RenderedSection :=
  let filteredOps := filterOperations allOperations searchTerm
  let groupedByTag := groupOperationsByTag filteredOps
  let starredOps := filteredOps.filter (fun op =>
    decide (generateRouteKey specId op.method op.path ∈ starredRouteKeys))
  (if starredOps.length > 0 then [{ tagId := str "starred", collapsed := false }]
   else []) ++
  groupedByTag.map (fun g =>
    { tagId := str "tag-" ++ wsRunsToDash (jsToLower g.1), collapsed := true })

/-- Source: `sidebar-ui.js` lines 410-417.  A click on a tag header
toggles the `collapsed` class of its section in the currently rendered
markup. -/
def userToggleSection (sections : List RenderedSection) (sid : Str) :
    List RenderedSection :=
  sections.map (fun s =>
    if s.tagId == sid then { s with collapsed := !s.collapsed } else s)

/-! ## Generic helper lemmas -/

/-- Membership through the set-building fold. -/
theorem mem_foldl_jsSetAdd (l : List Str) (acc : List Str) (x : Str) :
    x ∈ l.foldl jsSetAdd acc ↔ x ∈ acc ∨ x ∈ l := by
  induction l generalizing acc with
  | nil => simp
  | cons a t ih =>
    simp only [List.foldl_cons, ih, jsSetAdd]
    split <;> rename_i ha
    · constructor
      · rintro (h | h)
        · exact Or.inl h
        · exact Or.inr (List.mem_cons_of_mem _ h)
      · rintro (h | h)
        · exact Or.inl h
        · rcases List.mem_cons.mp h with rfl | h
          · exact Or.inl ha
          · exact Or.inr h
    · simp only [List.mem_append, List.mem_singleton, List.mem_cons]
      tauto

/-- The set-building fold preserves freedom from duplicates. -/
theorem nodup_foldl_jsSetAdd (l : List Str) (acc : List Str) (h : acc.Nodup) :
    (l.foldl jsSetAdd acc).Nodup := by
  induction l generalizing acc with
  | nil => simpa
  | cons a t ih =>
    simp only [List.foldl_cons, jsSetAdd]
    split <;> rename_i ha
    · exact ih _ h
    · exact ih _ (by simp [List.nodup_append, h, ha])

/-- Folding fresh, duplicate-free elements appends them in order. -/
theorem foldl_jsSetAdd_eq_append (l : List Str) (acc : List Str)
    (hl : l.Nodup) (hd : ∀ x ∈ l, x ∉ acc) :
    l.foldl jsSetAdd acc = acc ++ l := by
  induction l generalizing acc with
  | nil => simp
  | cons a t ih =>
    simp only [List.foldl_cons, jsSetAdd]
    rw [if_neg (hd a (List.mem_cons_self a t))]
    rw [ih (acc ++ [a]) hl.of_cons]
    · simp
    · intro x hx
      simp only [List.mem_append, List.mem_singleton]
      rintro (h | rfl)
      · exact hd x (List.mem_cons_of_mem _ hx) h
      · exact (List.nodup_cons.mp hl).1 hx

/-- Membership in the JS-set model agrees with the source array. -/
theorem mem_jsSetOfList (l : List Str) (x : Str) :
    x ∈ jsSetOfList l ↔ x ∈ l := by
  simp [jsSetOfList, mem_foldl_jsSetAdd]

/-- The JS-set model has no duplicates. -/
theorem nodup_jsSetOfList (l : List Str) : (jsSetOfList l).Nodup :=
  nodup_foldl_jsSetAdd l [] List.nodup_nil

/-- A duplicate-free array is its own set. -/
theorem jsSetOfList_eq_self (l : List Str) (h : l.Nodup) : jsSetOfList l = l := by
  simpa using foldl_jsSetAdd_eq_append l [] h (by simp)

/-- Reading through `map` at an in-range index. -/
theorem getD_map_of_lt {α β : Type} (l : List α) (f : α → β) (i : Nat)
    (d : β) (a : α) (h : i < l.length) :
    (l.map f).getD i d = f (l.getD i a) := by
  induction l generalizing i with
  | nil => simp at h
  | cons x xs ih =>
    cases i with
    | zero => simp [List.getD]
    | succ n =>
      simp only [List.map_cons, List.getD_cons_succ]
      exact ih n (by simpa using h)

/-- What `List.find?` returning a value means: the value satisfies the
predicate, it sits at the first satisfying index, and nothing before
that index satisfies the predicate. -/
theorem find_first_of_eq_some {α : Type} (p : α → Bool) (l : List α) (b : α)
    (h : l.find? p = some b) :
    p b = true ∧ l.getD (l.findIdx p) b = b ∧
      (l.take (l.findIdx p)).all (fun x => !p x) = true := by
  induction l with
  | nil => simp [List.find?] at h
  | cons a t ih =>
    by_cases hpa : p a = true
    · rw [List.find?_cons_of_pos _ hpa] at h
      obtain rfl : a = b := by injection h
      refine ⟨hpa, ?_, ?_⟩
      · simp [List.findIdx_cons, hpa, List.getD]
      · simp [List.findIdx_cons, hpa]
    · rw [List.find?_cons_of_neg _ hpa] at h
      obtain ⟨h1, h2, h3⟩ := ih h
      have hpaf : p a = false := by simpa using hpa
      refine ⟨h1, ?_, ?_⟩
      · simpa [List.findIdx_cons, hpaf, List.getD_cons_succ] using h2
      · simp [List.findIdx_cons, hpaf, List.take_succ_cons, h3]

/-- A list is a leading segment of itself followed by anything. -/
theorem listPrefixOf_self_append (l t : Str) : listPrefixOf l (l ++ t) = true := by
  induction l with
  | nil => simp [listPrefixOf]
  | cons a as ih => simp [listPrefixOf, ih]

/-! ## Claim C5 — route-key determinism and separation -/

/-- C5: `generateRouteKey` is deterministic (equal output on repeated
calls with the same specIdentifier, method and path), and two operations
whose inputs differ in exactly the specIdentifier, exactly the method,
or exactly the path receive distinct keys — in particular the same
method and path under different documents never collide. -/
theorem generateRouteKey_stable_and_separating
    (s1 s2 m1 m2 p1 p2 : Str) (hs : s1 ≠ s2) (hm : m1 ≠ m2) (hp : p1 ≠ p2) :
    generateRouteKey s1 m1 p1 = generateRouteKey s1 m1 p1 ∧
    generateRouteKey s1 m1 p1 ≠ generateRouteKey s2 m1 p1 ∧
    generateRouteKey s1 m1 p1 ≠ generateRouteKey s1 m2 p1 ∧
    generateRouteKey s1 m1 p1 ≠ generateRouteKey s1 m1 p2 := by
  refine ⟨rfl, ?_, ?_, ?_⟩
  · intro h
    simp only [generateRouteKey, List.append_assoc] at h
    exact hs (List.append_cancel_right h)
  · intro h
    simp only [generateRouteKey, List.append_assoc] at h
    have h1 := List.append_cancel_left h
    have h2 := List.append_cancel_left h1
    exact hm (List.append_cancel_right h2)
  · intro h
    simp only [generateRouteKey, List.append_assoc] at h
    have h1 := List.append_cancel_left (List.append_cancel_left h)
    exact hp (List.append_cancel_left (List.append_cancel_left h1))

/-- Witness for C5 at concrete documents, methods and paths. -/
theorem generateRouteKey_stable_and_separating_witness :
    generateRouteKey (str "Petstore") (str "GET") (str "/pets")
      = generateRouteKey (str "Petstore") (str "GET") (str "/pets") ∧
    generateRouteKey (str "Petstore") (str "GET") (str "/pets")
      ≠ generateRouteKey (str "OtherDoc") (str "GET") (str "/pets") ∧
    generateRouteKey (str "Petstore") (str "GET") (str "/pets")
      ≠ generateRouteKey (str "Petstore") (str "POST") (str "/pets") ∧
    generateRouteKey (str "Petstore") (str "GET") (str "/pets")
      ≠ generateRouteKey (str "Petstore") (str "GET") (str "/dogs") :=
  generateRouteKey_stable_and_separating (str "Petstore") (str "OtherDoc")
    (str "GET") (str "POST") (str "/pets") (str "/dogs")
    (by decide) (by decide) (by decide)

/-! ## Claim C6 — toggle round-trip -/

/-- C6: toggling a route whose key is absent from the stored starred set
returns `true` and persists exactly that key added (every other key's
membership unchanged); a second toggle of the same route returns `false`,
removes it, restores the serialized set to its original contents — in
particular its size returns to the original count — and leaves every
other key unchanged. -/
theorem toggleStarred_roundtrip (stored : List Str) (key other : Str)
    (hkey : key ∉ stored) (hother : other ≠ key) :
    (toggleStarred stored key).2 = true ∧
    (toggleStarred stored key).1 = getStarredRoutes stored ++ [key] ∧
    key ∈ (toggleStarred stored key).1 ∧
    (other ∈ (toggleStarred stored key).1 ↔ other ∈ stored) ∧
    (toggleStarred (toggleStarred stored key).1 key).2 = false ∧
    (toggleStarred (toggleStarred stored key).1 key).1 = getStarredRoutes stored ∧
    key ∉ (toggleStarred (toggleStarred stored key).1 key).1 ∧
    (other ∈ (toggleStarred (toggleStarred stored key).1 key).1 ↔ other ∈ stored) ∧
    (toggleStarred (toggleStarred stored key).1 key).1.length
      = (getStarredRoutes stored).length := by
  have hS : key ∉ jsSetOfList stored := fun h => hkey ((mem_jsSetOfList _ _).mp h)
  have h1 : (toggleStarred stored key).1 = jsSetOfList stored ++ [key] := by
    simp [toggleStarred, getStarredRoutes, hS]
  have h1r : (toggleStarred stored key).2 = true := by
    simp [toggleStarred, getStarredRoutes, hS]
  have hnodup : (jsSetOfList stored ++ [key]).Nodup := by
    simp [List.nodup_append, nodup_jsSetOfList, hS]
  have hset : jsSetOfList (jsSetOfList stored ++ [key]) = jsSetOfList stored ++ [key] :=
    jsSetOfList_eq_self _ hnodup
  have hmem : key ∈ jsSetOfList stored ++ [key] := by simp
  have herase : (jsSetOfList stored ++ [key]).erase key = jsSetOfList stored := by
    rw [List.erase_append_right _ hS]
    simp
  have h2 : (toggleStarred (jsSetOfList stored ++ [key]) key).1 = jsSetOfList stored := by
    simp only [toggleStarred, getStarredRoutes, hset]
    rw [if_pos hmem]
    exact herase
  have h2r : (toggleStarred (jsSetOfList stored ++ [key]) key).2 = false := by
    simp only [toggleStarred, getStarredRoutes, hset]
    rw [if_pos hmem, herase]
    simpa using hS
  refine ⟨h1r, by rw [h1]; rfl, ?_, ?_, ?_, ?_, ?_, ?_, ?_⟩
  · rw [h1]; simp
  · rw [h1]; simp [mem_jsSetOfList, hother]
  · rw [h1]; exact h2r
  · rw [h1]; exact h2
  · rw [h1, h2]; exact hS
  · rw [h1, h2]; exact mem_jsSetOfList stored other
  · rw [h1, h2]; rfl

/-- Witness for C6: starring then unstarring `GET /pets` in a store that
holds one other key. -/
theorem toggleStarred_roundtrip_witness :
    (toggleStarred [str "Doc::POST::/x"] (str "Doc::GET::/pets")).2 = true ∧
    (toggleStarred [str "Doc::POST::/x"] (str "Doc::GET::/pets")).1
      = getStarredRoutes [str "Doc::POST::/x"] ++ [str "Doc::GET::/pets"] ∧
    str "Doc::GET::/pets"
      ∈ (toggleStarred [str "Doc::POST::/x"] (str "Doc::GET::/pets")).1 ∧
    (str "Doc::POST::/x"
        ∈ (toggleStarred [str "Doc::POST::/x"] (str "Doc::GET::/pets")).1
      ↔ str "Doc::POST::/x" ∈ [str "Doc::POST::/x"]) ∧
    (toggleStarred (toggleStarred [str "Doc::POST::/x"] (str "Doc::GET::/pets")).1
      (str "Doc::GET::/pets")).2 = false ∧
    (toggleStarred (toggleStarred [str "Doc::POST::/x"] (str "Doc::GET::/pets")).1
      (str "Doc::GET::/pets")).1 = getStarredRoutes [str "Doc::POST::/x"] ∧
    str "Doc::GET::/pets"
      ∉ (toggleStarred (toggleStarred [str "Doc::POST::/x"] (str "Doc::GET::/pets")).1
          (str "Doc::GET::/pets")).1 ∧
    (str "Doc::POST::/x"
        ∈ (toggleStarred (toggleStarred [str "Doc::POST::/x"] (str "Doc::GET::/pets")).1
            (str "Doc::GET::/pets")).1
      ↔ str "Doc::POST::/x" ∈ [str "Doc::POST::/x"]) ∧
    (toggleStarred (toggleStarred [str "Doc::POST::/x"] (str "Doc::GET::/pets")).1
      (str "Doc::GET::/pets")).1.length
      = (getStarredRoutes [str "Doc::POST::/x"]).length :=
  toggleStarred_roundtrip [str "Doc::POST::/x"] (str "Doc::GET::/pets")
    (str "Doc::POST::/x") (by decide) (by decide)

/-! ## Claim C9 — scoped bulk clear (corrected) -/

/-- C9 counterexample: a key belonging to the document whose identifier
is `"A::B"` is removed by a clear scoped to the different document
`"A"`, because the filter tests only the textual `` `${specId}::` ``
leading segment — refuting the claim that keys of every other document
are left unchanged. -/
theorem clearStarredRoutes_deletes_other_document_key :
    str "A::B" ≠ str "A" ∧
    generateRouteKey (str "A::B") (str "GET") (str "/pets")
      ∈ [generateRouteKey (str "A::B") (str "GET") (str "/pets")] ∧
    generateRouteKey (str "A::B") (str "GET") (str "/pets")
      ∉ clearStarredRoutes
          [generateRouteKey (str "A::B") (str "GET") (str "/pets")] (str "A") := by
  decide

/-- C9 amended: `clearStarredRoutes` removes every key generated for the
current specIdentifier, and a stored key is kept (with membership
unchanged) exactly when it does not textually start with
`` `${specId}::` `` — so another document's keys survive precisely when
that document's identifier is not an extension of the current one. -/
theorem clearStarredRoutes_scoped_amended
    (stored : List Str) (specId m p k : Str)
    (hk : jsStartsWith k (specId ++ str "::") = false) :
    generateRouteKey specId m p ∉ clearStarredRoutes stored specId ∧
    (k ∈ clearStarredRoutes stored specId ↔ k ∈ stored) := by
  have hsw : jsStartsWith (generateRouteKey specId m p) (specId ++ str "::") = true := by
    unfold jsStartsWith generateRouteKey
    have hassoc : specId ++ str "::" ++ m ++ str "::" ++ p
        = (specId ++ str "::") ++ (m ++ str "::" ++ p) := by
      simp [List.append_assoc]
    rw [hassoc]
    exact listPrefixOf_self_append _ _
  constructor
  · intro hmem
    have := (List.mem_filter.mp hmem).2
    rw [hsw] at this
    simp at this
  · simp [clearStarredRoutes, getStarredRoutes, List.mem_filter,
      mem_jsSetOfList, hk]

/-- Witness for C9's amended statement on a concrete store holding one
current-document key and one foreign key. -/
theorem clearStarredRoutes_scoped_amended_witness :
    generateRouteKey (str "A") (str "GET") (str "/pets")
      ∉ clearStarredRoutes [str "A::GET::/pets", str "C::GET::/x"] (str "A") ∧
    (str "C::GET::/x"
        ∈ clearStarredRoutes [str "A::GET::/pets", str "C::GET::/x"] (str "A")
      ↔ str "C::GET::/x" ∈ [str "A::GET::/pets", str "C::GET::/x"]) :=
  clearStarredRoutes_scoped_amended [str "A::GET::/pets", str "C::GET::/x"]
    (str "A") (str "GET") (str "/pets") (str "C::GET::/x") (by decide)

/-! ## Concrete example data used by claim instances -/

/-- The first example operation of the filter-correctness property:
`GET /pets` with empty summary and operationId. -/
def opGET : TaggedOperation :=
  { method := str "GET", path := str "/pets", summary := [], operationId := [],
    isDeprecated := false, id := [], tagName := str "pets", tagId := str "tag-pets" }

/-- The second example operation: `POST /pets`, summary "Create a pet". -/
def opPOST : TaggedOperation :=
  { method := str "POST", path := str "/pets", summary := str "Create a pet",
    operationId := [], isDeprecated := false, id := [], tagName := str "pets",
    tagId := str "tag-pets" }

/-- A well-formed operation block: lowercase method text `get`, padded
path text, a summary, no explicit id. -/
def goodBlock : OpBlock :=
  { methodText := some (str "get"), pathText := some (str " /pets "),
    summaryText := some (str "List pets"), operationIdText := none,
    hasDeprecatedClass := false, hasDeprecatedChild := false, idAttr := [] }

/-- A malformed operation block: the method sub-element is missing. -/
def badBlock : OpBlock :=
  { methodText := none, pathText := some (str "/broken"),
    summaryText := none, operationIdText := none,
    hasDeprecatedClass := false, hasDeprecatedChild := false, idAttr := [] }

/-- Another well-formed block, `POST /pets`, used as a later sibling. -/
def postBlock : OpBlock :=
  { methodText := some (str "POST"), pathText := some (str "/pets"),
    summaryText := some (str "Create a pet"), operationIdText := none,
    hasDeprecatedClass := false, hasDeprecatedChild := false, idAttr := [] }

/-- First of two blocks rendering the same `(method, path)` identity
(mixed-case method text). -/
def dupBlockA : OpBlock :=
  { methodText := some (str "Get"), pathText := some (str "/pets"),
    summaryText := some (str "first occurrence"), operationIdText := none,
    hasDeprecatedClass := false, hasDeprecatedChild := false, idAttr := [] }

/-- Second block with the same `(method, path)` identity under another
tag. -/
def dupBlockB : OpBlock :=
  { methodText := some (str "GET"), pathText := some (str "/pets"),
    summaryText := some (str "second occurrence"), operationIdText := none,
    hasDeprecatedClass := false, hasDeprecatedChild := false, idAttr := [] }

/-! ## Claim C7 — filter correctness -/

/-- C7: `filterOperations` preserves input order (its output is a
sublist of its input), an operation is kept exactly when the term is
empty or the lowercased combination of its method, path, summary and
operationId contains the term as a substring, and on the example list
`[{GET,/pets,"",""}, {POST,/pets,"Create a pet",""}]` the term
`"create"` selects only the second operation, `"pets"` selects both,
and the empty term returns the list unchanged. -/
theorem filterOperations_correct (ops : List TaggedOperation) (term : Str)
    (op : TaggedOperation) :
    List.Sublist (filterOperations ops term) ops ∧
    (op ∈ filterOperations ops term ↔
      op ∈ ops ∧ (term = [] ∨ strIncludes (searchableText op) term = true)) ∧
    filterOperations [opGET, opPOST] (str "create") = [opPOST] ∧
    filterOperations [opGET, opPOST] (str "pets") = [opGET, opPOST] ∧
    filterOperations [opGET, opPOST] [] = [opGET, opPOST] := by
  refine ⟨?_, ?_, by decide, by decide, by decide⟩
  · unfold filterOperations
    split
    · exact List.Sublist.refl _
    · exact List.filter_sublist _
  · by_cases ht : term = []
    · subst ht
      simp [filterOperations]
    · have hne : term.isEmpty = false := by
        cases term with
        | nil => exact absurd rfl ht
        | cons c cs => rfl
      simp [filterOperations, hne, List.mem_filter, ht]

/-! ## Claim C8 — partial-markup tolerance -/

/-- C8: a block missing its method or path sub-element parses to no
operation, and dropping such a block from a tag group leaves the
extraction of that group — and of a whole surrounding section list —
unchanged: one malformed block never aborts or empties extraction. -/
theorem extraction_skips_malformed_block (b : OpBlock)
    (hb : b.methodText = none ∨ b.pathText = none)
    (xs ys : List OpBlock) (gs1 gs2 : List TagSection) (hdr tid : Str) :
    parseOperation b = none ∧
    extractOperationsForTag (xs ++ b :: ys) = extractOperationsForTag (xs ++ ys) ∧
    extractAllOperations (gs1 ++ ⟨some hdr, tid, xs ++ b :: ys⟩ :: gs2)
      = extractAllOperations (gs1 ++ ⟨some hdr, tid, xs ++ ys⟩ :: gs2) := by
  have hparse : parseOperation b = none := by
    rcases hb with h | h
    · simp [parseOperation, h]
    · cases hm : b.methodText <;> simp [parseOperation, h, hm]
  have hext : extractOperationsForTag (xs ++ b :: ys)
      = extractOperationsForTag (xs ++ ys) := by
    simp [extractOperationsForTag, List.filterMap_append, List.filterMap_cons, hparse]
  refine ⟨hparse, hext, ?_⟩
  simp only [extractAllOperations, extractTags, List.filterMap_append,
    List.filterMap_cons, List.flatMap_append, List.flatMap_cons]
  rw [hext]

/-- Witness for C8: the malformed `badBlock` sits between two good
blocks of one tag group, with a second tag group following. -/
theorem extraction_skips_malformed_block_witness :
    parseOperation badBlock = none ∧
    extractOperationsForTag ([goodBlock] ++ badBlock :: [postBlock])
      = extractOperationsForTag ([goodBlock] ++ [postBlock]) ∧
    extractAllOperations
        ([] ++ ⟨some (str "pets"), str "tag-pets", [goodBlock] ++ badBlock :: [postBlock]⟩
          :: [⟨some (str "stores"), str "tag-stores", [postBlock]⟩])
      = extractAllOperations
          ([] ++ ⟨some (str "pets"), str "tag-pets", [goodBlock] ++ [postBlock]⟩
            :: [⟨some (str "stores"), str "tag-stores", [postBlock]⟩]) :=
  extraction_skips_malformed_block badBlock (by decide) [goodBlock] [postBlock]
    [] [⟨some (str "stores"), str "tag-stores", [postBlock]⟩]
    (str "pets") (str "tag-pets")

/-! ## Claim C10 — first-match resolution -/

/-- C10: when `findOperationElement` returns a block, that block matches
the queried method (compared after uppercasing both sides, hence
case-insensitively) and path, it sits at the first matching position of
the document-order block list, and no earlier block matches — so a
jump-to from a duplicate sidebar entry always targets the first
occurrence. -/
theorem findOperationElement_first_match
    (blocks : List OpBlock) (method path : Str) (b : OpBlock)
    (h : findOperationElement method path blocks = some b) :
    opMatches method path b = true ∧
    blocks.getD (blocks.findIdx (opMatches method path)) b = b ∧
    (blocks.take (blocks.findIdx (opMatches method path))).all
      (fun x => !(opMatches method path x)) = true :=
  find_first_of_eq_some (opMatches method path) blocks b h

/-- Witness for C10: two blocks share the identity `GET /pets` (the
first with mixed-case method text); the lookup returns the first. -/
theorem findOperationElement_first_match_witness :
    opMatches (str "get") (str "/pets") dupBlockA = true ∧
    [dupBlockA, dupBlockB].getD
      ([dupBlockA, dupBlockB].findIdx (opMatches (str "get") (str "/pets")))
      dupBlockA = dupBlockA ∧
    ([dupBlockA, dupBlockB].take
      ([dupBlockA, dupBlockB].findIdx (opMatches (str "get") (str "/pets")))).all
      (fun x => !(opMatches (str "get") (str "/pets") x)) = true :=
  findOperationElement_first_match [dupBlockA, dupBlockB] (str "get") (str "/pets")
    dupBlockA (by decide)

/-! ## Claim C2 — collapse state across refresh (code bug) -/

/-- C2 (code-bug evidence): `renderOperations` rebuilds the list markup
from scratch and `renderTag` unconditionally emits the `collapsed`
class, so after a user expands the only tag section a background
refresh renders it collapsed again — user-chosen expand state does not
survive a re-render.  The default part of the claim does hold: ordinary
tag sections render collapsed and the starred section renders without
the `collapsed` class (expanded), listed first. -/
theorem render_resets_user_expanded_tag :
    renderOperations [opGET] [] (str "S") [] = [⟨str "tag-pets", true⟩] ∧
    userToggleSection (renderOperations [opGET] [] (str "S") []) (str "tag-pets")
      = [⟨str "tag-pets", false⟩] ∧
    renderOperations [opGET] [] (str "S") []
      ≠ userToggleSection (renderOperations [opGET] [] (str "S") []) (str "tag-pets") ∧
    renderOperations [opGET]
        [generateRouteKey (str "S") (str "GET") (str "/pets")] (str "S") []
      = [⟨str "starred", false⟩, ⟨str "tag-pets", true⟩] := by
  decide

/-! ## Claim C1 — idempotent star injection -/

/-- A well-formed operation block for injection purposes: it parses
(method and path sub-elements present) and has a summary region to
receive the control. -/
def wellFormedBlock (b : InjBlock) : Bool :=
  (parseOperation b.block).isSome && b.hasSummaryRegion

/-- A block already carrying a star control is left untouched by one
injection step. -/
theorem injectStep_of_has_star (sid : Str) (srt : List Str) (b : InjBlock)
    (h : b.stars ≠ []) : injectStep sid srt b = b := by
  cases hstars : b.stars with
  | nil => exact absurd hstars h
  | cons s rest => simp [injectStep, hstars]

/-- One injection step gives a starless well-formed block exactly one
star control. -/
theorem injectStep_stars_one (sid : Str) (srt : List Str) (b : InjBlock)
    (hp : (parseOperation b.block).isSome = true)
    (hs : b.hasSummaryRegion = true) (he : b.stars = []) :
    (injectStep sid srt b).stars.length = 1 := by
  obtain ⟨op, hop⟩ := Option.isSome_iff_exists.mp hp
  simp [injectStep, he, hop, hs]

/-- A second injection step (with any starred set) leaves the result of
a first step unchanged. -/
theorem injectStep_cross (sid : Str) (srt1 srt2 : List Str) (b : InjBlock) :
    injectStep sid srt2 (injectStep sid srt1 b) = injectStep sid srt1 b := by
  by_cases hstars : b.stars = []
  · cases hop : parseOperation b.block with
    | none => simp [injectStep, hstars, hop]
    | some op =>
      by_cases hs : b.hasSummaryRegion = true
      · simp [injectStep, hstars, hop, hs]
      · simp [injectStep, hstars, hop, hs]
  · rw [injectStep_of_has_star sid srt1 b hstars]
    exact injectStep_of_has_star sid srt2 b hstars

/-- Re-running injection over a block list (with any starred set) leaves
the first run's output unchanged. -/
theorem injectStars_cross (sid : Str) (srt1 srt2 : List Str)
    (blocks : List InjBlock) :
    injectStarsIntoOperations sid srt2 (injectStarsIntoOperations sid srt1 blocks)
      = injectStarsIntoOperations sid srt1 blocks := by
  unfold injectStarsIntoOperations
  rw [List.map_map]
  exact List.map_congr_left (fun b _ =>
    injectStep_cross sid (getStarredRoutes srt1) (getStarredRoutes srt2) b)

/-- C1: star injection is idempotent.  After one injection pass every
well-formed starless operation block carries exactly one star control;
a second pass — even with a different starred set, as a later
reconciliation would load — changes nothing; any positive number of
repeated passes equals a single pass; and a block already carrying a
`.swagger-nav-star` control is skipped unchanged, never receiving a
duplicate. -/
theorem injectStars_idempotent_single_control
    (specId : Str) (stored1 stored2 : List Str) (blocks : List InjBlock)
    (i n : Nat) (c : InjBlock)
    (hi : i < blocks.length)
    (hwf : wellFormedBlock (blocks.getD i default) = true)
    (hempty : (blocks.getD i default).stars = [])
    (hn : 1 ≤ n) (hc : c.stars ≠ []) :
    ((injectStarsIntoOperations specId stored1 blocks).getD i default).stars.length = 1 ∧
    injectStarsIntoOperations specId stored2
        (injectStarsIntoOperations specId stored1 blocks)
      = injectStarsIntoOperations specId stored1 blocks ∧
    (injectStarsIntoOperations specId stored1)^[n] blocks
      = injectStarsIntoOperations specId stored1 blocks ∧
    injectStep specId (getStarredRoutes stored1) c = c := by
  obtain ⟨hp, hs⟩ := Bool.and_eq_true_iff.mp hwf
  refine ⟨?_, injectStars_cross specId stored1 stored2 blocks, ?_, ?_⟩
  · unfold injectStarsIntoOperations
    rw [getD_map_of_lt blocks _ i default default hi]
    exact injectStep_stars_one specId (getStarredRoutes stored1)
      (blocks.getD i default) hp hs hempty
  · obtain ⟨m, rfl⟩ : ∃ m, n = m + 1 := ⟨n - 1, (Nat.succ_pred_eq_of_pos hn).symm⟩
    induction m with
    | zero => simp
    | succ k ih =>
      rw [Function.iterate_succ_apply', ih (Nat.le_add_left 1 k)]
      exact injectStars_cross specId stored1 stored1 blocks
  · exact injectStep_of_has_star specId (getStarredRoutes stored1) c hc

/-- A well-formed starless block used by the injection witness. -/
def injGood : InjBlock :=
  { block := goodBlock, hasSummaryRegion := true, hasExpandControl := true,
    stars := [] }

/-- A block already carrying an injected control. -/
def injStarred : InjBlock :=
  { block := goodBlock, hasSummaryRegion := true, hasExpandControl := true,
    stars := [⟨str "GET", str "/pets", false⟩] }

/-- Witness for C1 on a one-block page, two passes with differing
starred sets, and an already-starred block. -/
theorem injectStars_idempotent_single_control_witness :
    ((injectStarsIntoOperations (str "S") [] [injGood]).getD 0 default).stars.length = 1 ∧
    injectStarsIntoOperations (str "S") [str "k"]
        (injectStarsIntoOperations (str "S") [] [injGood])
      = injectStarsIntoOperations (str "S") [] [injGood] ∧
    (injectStarsIntoOperations (str "S") [])^[2] [injGood]
      = injectStarsIntoOperations (str "S") [] [injGood] ∧
    injectStep (str "S") (getStarredRoutes []) injStarred = injStarred :=
  injectStars_idempotent_single_control (str "S") [] [str "k"] [injGood] 0 2
    injStarred (by decide) (by decide) (by decide) (by decide) (by decide)

/-! ## Claim C3 — debounce coalescing -/

/-- While the timer is armed and every further qualifying batch arrives
inside the debounce window, each batch only re-arms the timer: the run
ends with the deadline set from the last batch and nothing fired. -/
theorem debounce_run_aux (batch : List MutationRecord)
    (hq : shouldReinitOf batch = true) :
    ∀ (rest : List Nat) (t0 : Nat) (s : MHState),
      s.observerConnected = true →
      s.debounceDeadline = some (t0 + DEBOUNCE_DELAY) →
      rapidChain (t0 :: rest) = true →
      runEvents s (rest.map (fun t => MHEvent.mutationBatch t batch))
        = { s with
            debounceDeadline := some ((t0 :: rest).getLastD 0 + DEBOUNCE_DELAY) } := by
  intro rest
  induction rest with
  | nil =>
    intro t0 s hconn hdl _
    simp only [List.map_nil, runEvents, List.foldl_nil, List.getLastD]
    cases s
    simp_all
  | cons t1 rest' ih =>
    intro t0 s hconn hdl hchain
    have hch : ((t0 ≤ t1) ∧ (t1 < t0 + DEBOUNCE_DELAY))
        ∧ rapidChain (t1 :: rest') = true := by
      simpa [rapidChain, Bool.and_eq_true, decide_eq_true_iff] using hchain
    have hnotle : ¬ (t0 + DEBOUNCE_DELAY ≤ t1) := Nat.not_le.mpr hch.1.2
    have hadv : advanceTo s t1 = s := by
      simp only [advanceTo, hdl]
      rw [if_neg hnotle]
    have hstep : stepEvent s (MHEvent.mutationBatch t1 batch)
        = debouncedReinit s t1 := by
      simp [stepEvent, hadv, hconn, handleMutations, hq]
    simp only [List.map_cons, runEvents, List.foldl_cons]
    rw [hstep]
    have hrun := ih t1 (debouncedReinit s t1)
      (by simp [debouncedReinit, hconn]) (by simp [debouncedReinit]) hch.2
    simp only [runEvents] at hrun
    rw [hrun]
    simp [debouncedReinit, List.getLastD_cons]

/-- C3: a nonempty run of qualifying mutation batches, each arriving
less than the debounce window after the previous one, produces exactly
one reconciliation — one `injectStarsIntoOperations` call plus one
sidebar refresh — and it fires only at `last + DEBOUNCE_DELAY`, i.e.
after a full quiet window following the final mutation. -/
theorem debounce_coalesces_single_reconciliation
    (t0 : Nat) (rest : List Nat) (batch : List MutationRecord) (tEnd : Nat)
    (hchain : rapidChain (t0 :: rest) = true)
    (hq : shouldReinitOf batch = true)
    (hEnd : (t0 :: rest).getLastD 0 + DEBOUNCE_DELAY ≤ tEnd) :
    (advanceTo (runEvents (mhInitState true)
        ((t0 :: rest).map (fun t => MHEvent.mutationBatch t batch))) tEnd).recons
      = [⟨(t0 :: rest).getLastD 0 + DEBOUNCE_DELAY, 1, 1⟩] := by
  simp only [List.map_cons, runEvents, List.foldl_cons]
  have h1 : stepEvent (mhInitState true) (MHEvent.mutationBatch t0 batch)
      = debouncedReinit (mhInitState true) t0 := by
    simp [stepEvent, advanceTo, mhInitState, handleMutations, hq]
  rw [h1]
  have hrun := debounce_run_aux batch hq rest t0
    (debouncedReinit (mhInitState true) t0)
    (by simp [debouncedReinit, mhInitState])
    (by simp [debouncedReinit]) hchain
  simp only [runEvents] at hrun
  rw [hrun]
  simp only [advanceTo, debouncedReinit, mhInitState]
  rw [if_pos hEnd]
  simp [fireTimer]

/-- A qualifying mutation batch: one record whose added node is an
element matching `.opblock, .opblock-tag-section`. -/
def qBatch : List MutationRecord := [⟨[⟨true, true, false⟩]⟩]

/-- Witness for C3: three qualifying batches at t = 0, 100, 250 ms (gaps
100 and 150 < 300) observed until t = 600 ms yield the single
reconciliation at t = 550 ms. -/
theorem debounce_coalesces_single_reconciliation_witness :
    (advanceTo (runEvents (mhInitState true)
        (([0, 100, 250] : List Nat).map (fun t => MHEvent.mutationBatch t qBatch))) 600).recons
      = [⟨([0, 100, 250] : List Nat).getLastD 0 + DEBOUNCE_DELAY, 1, 1⟩] :=
  debounce_coalesces_single_reconciliation 0 [100, 250] qBatch 600
    (by decide) (by decide) (by decide)

/-! ## Claim C4 — teardown cancellation (code bug) -/

/-- C4 (code-bug evidence): a qualifying mutation at t = 0 arms the
debounce timer for t = 300; `destroy()` at t = 100 disconnects the
observer but — because the source's `destroy` never calls
`clearTimeout(debounceTimer)` — the deadline survives, and at t = 300
the timer fires a full reconciliation (one injection plus one sidebar
refresh) after teardown. -/
theorem destroy_leaves_pending_timer_firing :
    (runEvents (mhInitState true)
        [MHEvent.mutationBatch 0 qBatch, MHEvent.destroyCall 100]).observerConnected
      = false ∧
    (runEvents (mhInitState true)
        [MHEvent.mutationBatch 0 qBatch, MHEvent.destroyCall 100]).debounceDeadline
      = some DEBOUNCE_DELAY ∧
    (advanceTo (runEvents (mhInitState true)
        [MHEvent.mutationBatch 0 qBatch, MHEvent.destroyCall 100])
        DEBOUNCE_DELAY).recons
      = [⟨DEBOUNCE_DELAY, 1, 1⟩] := by
  decide
